import Mathlib

/-!
Verification of the `RelativeEq` module of the `approx` crate
(`src/relative_eq.rs`).

The primitive algorithm operates on IEEE-754 binary floating-point values
(`f32` / `f64`).  We embed the float domain shallowly as an inductive type
`F` with the special values the algorithm inspects (NaN, signed infinities,
the negative zero bit pattern) and exact rationals for the remaining finite
values.  The floating-point operations the source uses (`==`, `is_infinite`,
`abs`, `-`, `*`, `<=`, `>`) are modelled from the spec ("all arithmetic uses
the native floating-point operations"): their behaviour on the special
values follows IEEE-754, and arithmetic on finite values is idealized as
exact rational arithmetic (the sign of a zero *result* of `-` and `*` is not
tracked; in the algorithm those results only feed `abs` and `<=`, where the
sign of zero is immaterial).  The model is width-generic: it covers both the
`f32` and the `f64` instantiation of the `impl_relative_eq!` macro, which
differ only in the `EPSILON` constant.
-/

/-- Modelled from the spec: an IEEE-754 binary floating-point value, as far
as the algorithm observes it — NaN, an infinity with its sign (`pos = true`
for `+∞`), the negative-zero bit pattern, or a finite value idealized as an
exact rational (`F.fin 0` is `+0.0`). -/
inductive F : Type where
  | nan : F
  | inf (pos : Bool) : F
  | negZero : F
  | fin (q : ℚ) : F
deriving DecidableEq

namespace F

/-- The numeric value of a finite float (`none` for NaN and infinities);
`-0.0` has value `0`. -/
def val : F → Option ℚ
  | .negZero => some 0
  | .fin q => some q
  | _ => none

/-- Modelled from the spec: native float equality `==`.  NaN is equal to
nothing (itself included); `+0.0 == -0.0`; equal-signed infinities are
equal. -/
def beq (a b : F) : Bool :=
  match a, b with
  | .inf s, .inf t => s == t
  | a, b =>
    match a.val, b.val with
    | some q, some r => decide (q = r)
    | _, _ => false

/-- Modelled from the spec: `is_infinite`. -/
def isInfinite : F → Bool
  | .inf _ => true
  | _ => false

/-- Modelled from the spec: native float subtraction.  NaN propagates;
`∞ - ∞` of equal signs is NaN; finite subtraction is exact (the sign of a
zero result is not tracked: the algorithm feeds every difference to
`abs`). -/
def sub (a b : F) : F :=
  match a, b with
  | .nan, _ => .nan
  | _, .nan => .nan
  | .inf s, .inf t => if s = t then .nan else .inf s
  | .inf s, _ => .inf s
  | _, .inf t => .inf (!t)
  | a, b => .fin (a.val.getD 0 - b.val.getD 0)

/-- Modelled from the spec: native float `abs`. -/
def abs : F → F
  | .nan => .nan
  | .inf _ => .inf true
  | .negZero => .fin 0
  | .fin q => .fin |q|

/-- Modelled from the spec: native float `<=`.  Any comparison with NaN is
false; `-∞ ≤ x ≤ +∞`; `-0.0` compares as `0`. -/
def le (a b : F) : Bool :=
  match a, b with
  | .nan, _ => false
  | _, .nan => false
  | .inf s, .inf t => !s || t
  | .inf s, _ => !s
  | _, .inf t => t
  | a, b => decide (a.val.getD 0 ≤ b.val.getD 0)

/-- Modelled from the spec: native float `<`.  Any comparison with NaN is
false. -/
def lt (a b : F) : Bool :=
  match a, b with
  | .nan, _ => false
  | _, .nan => false
  | .inf s, .inf t => !s && t
  | .inf s, _ => !s
  | _, .inf t => t
  | a, b => decide (a.val.getD 0 < b.val.getD 0)

/-- Modelled from the spec: native float `>`, i.e. `<` flipped (false on
NaN). -/
def gt (a b : F) : Bool := lt b a

/-- Modelled from the spec: native float multiplication.  NaN propagates;
`∞ * 0` is NaN; finite multiplication is exact (sign of a zero result not
tracked: the algorithm only compares the product with `<=`). -/
def mul (a b : F) : F :=
  match a, b with
  | .nan, _ => .nan
  | _, .nan => .nan
  | .inf s, .inf t => .inf (s == t)
  | .inf s, b =>
    match b.val with
    | some q => if q = 0 then .nan else .inf (s == decide (0 < q))
    | none => .nan
  | a, .inf t =>
    match a.val with
    | some q => if q = 0 then .nan else .inf (t == decide (0 < q))
    | none => .nan
  | a, b => .fin (a.val.getD 0 * b.val.getD 0)

end F

/-- Translated from the source: `relative_eq` for the primitive float types, the body of
`impl_relative_eq!` (`src/relative_eq.rs` lines 69–99). -/
def relative_eq (self other epsilon max_relative : F) : Bool :=
  -- Handle same infinities
  if F.beq self other then
    true
  -- Handle remaining infinities
  else if self.isInfinite || other.isInfinite then
    false
  else
    let abs_diff := (self.sub other).abs
    -- For when the numbers are really close together
    if abs_diff.le epsilon then
      true
    else
      let abs_self := self.abs
      let abs_other := other.abs
      let largest := if F.gt abs_other abs_self then abs_other else abs_self
      -- Use a relative difference comparison
      abs_diff.le (largest.mul max_relative)

/-- Translated from the source: `relative_ne`, the provided (never overridden) trait method
(`src/relative_eq.rs` lines 43–50): the strict negation of
`relative_eq`. -/
def relative_ne (self other epsilon max_relative : F) : Bool :=
  !(relative_eq self other epsilon max_relative)

/-- Translated from the source: `default_max_relative` for `f32`, `f32::EPSILON` = 2⁻²³. -/
def default_max_relative_f32 : F := F.fin (mkRat 1 (2 ^ 23))

/-- Translated from the source: `default_max_relative` for `f64`, `f64::EPSILON` = 2⁻⁵². -/
def default_max_relative_f64 : F := F.fin (mkRat 1 (2 ^ 52))

/-- Modelled from the spec: `default_epsilon` of the external
Absolute-Difference Contract ("machine epsilon for IEEE floats"), for
`f64`: 2⁻⁵². -/
def default_epsilon_f64 : F := F.fin (mkRat 1 (2 ^ 52))

/-- Written from the spec's words (§4.2 step 4) for the refinement claim:
`max` of two floats, the larger of the two under native `<=`. -/
def F.max (a b : F) : F := if F.le a b then b else a

/-- Written from the spec's words (§4.2): the four-step ordered procedure.
Step 1: native equality; step 2: infinities; step 3: absolute-tolerance
fast path; step 4: relative comparison against `max(|a|,|b|) *
max_relative`. -/
def relative_eq_spec (a b epsilon max_relative : F) : Bool :=
  if F.beq a b then
    true
  else if a.isInfinite || b.isInfinite then
    false
  else
    let abs_diff := (a.sub b).abs
    if abs_diff.le epsilon then
      true
    else
      abs_diff.le ((F.max a.abs b.abs).mul max_relative)

/-- Translated from the source: `relative_eq` for slices, `impl RelativeEq<[B]> for [A]`
(`src/relative_eq.rs` lines 185–189), generic over the element comparison
`A::relative_eq` (epsilon cloning is the identity in the model). -/
def slice_relative_eq {α β E : Type} (elem_eq : α → β → E → E → Bool)
    (self : List α) (other : List β) (epsilon max_relative : E) : Bool :=
  (self.length == other.length)
    && (self.zip other).all (fun p => elem_eq p.1 p.2 epsilon max_relative)

/-- Modelled from the spec: a shared-mutable cell (`std`'s `RefCell`) as the
algorithm observes it — an inner value plus whether a conflicting writer
(mutable borrow) is currently active. -/
structure RefCell (T : Type) where
  value : T
  writerActive : Bool

/-- Modelled from the spec: `RefCell::borrow` acquires shared read access;
it "fails/panics if access conflicts with an existing writer" — the panic is
embedded as `none`. -/
def RefCell.borrow {T : Type} (c : RefCell T) : Option T :=
  if c.writerActive then none else some c.value

/-- Translated from the source: `relative_eq` for `RefCell<T>`, `impl RelativeEq for
cell::RefCell<T>` (`src/relative_eq.rs` lines 164–171): borrow both cells,
compare the inner values with `T::relative_eq`.  A panic of either `borrow`
propagates (`none`). -/
def refcell_relative_eq {T E : Type} (elem_eq : T → T → E → E → Bool)
    (self other : RefCell T) (epsilon max_relative : E) : Option Bool :=
  match self.borrow, other.borrow with
  | some x, some y => some (elem_eq x y epsilon max_relative)
  | _, _ => none

attribute [local semireducible] Rat.add Rat.sub Rat.mul

/-! ### Helper lemmas -/

theorem F.beq_symm (a b : F) : F.beq a b = F.beq b a := by
  cases a <;> cases b <;> simp [F.beq, F.val] <;> exact eq_comm

theorem F.abs_sub_symm (a b : F) : (a.sub b).abs = (b.sub a).abs := by
  cases a <;> cases b <;> simp [F.sub, F.abs, F.val] <;>
    first
      | exact abs_sub_comm _ _
      | exact congrArg F.fin (abs_sub_comm _ _)
      | · rename_i s t
          cases s <;> cases t <;> rfl

theorem relative_eq_nan_left (x epsilon max_relative : F) :
    relative_eq F.nan x epsilon max_relative = false := by
  cases x <;> simp [relative_eq, F.beq, F.val, F.isInfinite, F.sub, F.abs, F.le, F.gt, F.lt,
    F.mul]

theorem relative_eq_nan_right (x epsilon max_relative : F) :
    relative_eq x F.nan epsilon max_relative = false := by
  cases x <;> simp [relative_eq, F.beq, F.val, F.isInfinite, F.sub, F.abs, F.le, F.gt, F.lt,
    F.mul]

theorem F.largest_eq_max (a b : F) :
    (if F.gt b.abs a.abs then b.abs else a.abs) = F.max a.abs b.abs := by
  cases a <;> cases b <;>
    simp only [F.abs, F.gt, F.lt, F.le, F.max, F.val, Option.getD] <;>
    first
      | rfl
      | · rename_i s t
          cases s <;> cases t <;> rfl
      | · rename_i s
          cases s <;> rfl
      | · split <;> split <;>
            first
              | rfl
              | · rename_i h1 h2
                  simp_all <;>
                    first
                      | exact le_antisymm h2 h1
                      | exact absurd (h1.trans h2) (lt_irrefl _)
                      | exact absurd h1 (not_lt.mpr (abs_nonneg _))

theorem F.largest_symm (a b : F) (ha : a ≠ F.nan) (hb : b ≠ F.nan) :
    (if F.gt b.abs a.abs then b.abs else a.abs)
      = (if F.gt a.abs b.abs then a.abs else b.abs) := by
  cases a <;> cases b <;>
    first
      | exact absurd rfl ha
      | exact absurd rfl hb
      | rfl
      | · rename_i s t
          cases s <;> cases t <;> rfl
      | · rename_i s
          cases s <;> rfl
      | · simp only [F.abs, F.gt, F.lt, F.val, Option.getD]
          split <;> split <;>
            first
              | rfl
              | · rename_i h1 h2
                  simp_all <;>
                    first
                      | exact le_antisymm h2 h1
                      | exact le_antisymm h1 h2
                      | exact absurd (h1.trans h2) (lt_irrefl _)
                      | exact absurd (h2.trans h1) (lt_irrefl _)
                      | exact absurd h1 (not_lt.mpr (abs_nonneg _))
                      | exact absurd h2 (not_lt.mpr (abs_nonneg _))

theorem slice_relative_eq_true_iff {α β E : Type} (elem_eq : α → β → E → E → Bool)
    (xs : List α) (ys : List β) (epsilon max_relative : E) :
    slice_relative_eq elem_eq xs ys epsilon max_relative = true ↔
      xs.length = ys.length ∧
        ∀ (i : ℕ) (h1 : i < xs.length) (h2 : i < ys.length),
          elem_eq (xs.get ⟨i, h1⟩) (ys.get ⟨i, h2⟩) epsilon max_relative = true := by
  unfold slice_relative_eq
  rw [Bool.and_eq_true, beq_iff_eq, List.all_eq_true]
  constructor
  · rintro ⟨hlen, hall⟩
    refine ⟨hlen, fun i h1 h2 => ?_⟩
    have hi : i < (xs.zip ys).length := by
      rw [List.length_zip]; omega
    have hget : (xs.zip ys).get ⟨i, hi⟩ = (xs.get ⟨i, h1⟩, ys.get ⟨i, h2⟩) := by
      simp [List.get_eq_getElem, List.getElem_zip]
    have hmem : (xs.get ⟨i, h1⟩, ys.get ⟨i, h2⟩) ∈ xs.zip ys := by
      rw [← hget]; exact (xs.zip ys).get_mem i hi
    simpa using hall _ hmem
  · rintro ⟨hlen, hidx⟩
    refine ⟨hlen, fun p hp => ?_⟩
    obtain ⟨⟨i, hi⟩, hpe⟩ := List.mem_iff_get.mp hp
    have h1 : i < xs.length := by rw [List.length_zip] at hi; omega
    have h2 : i < ys.length := by rw [List.length_zip] at hi; omega
    have hget : (xs.zip ys).get ⟨i, hi⟩ = (xs.get ⟨i, h1⟩, ys.get ⟨i, h2⟩) := by
      simp [List.get_eq_getElem, List.getElem_zip]
    rw [← hpe, hget]
    exact hidx i h1 h2

/-! ### The claims -/

/-- C1: for every pair of values and every `epsilon` and `max_relative`, the
source's `relative_eq` is computed by exactly the spec's ordered procedure:
native equality first, then the infinity rejection, then the absolute
fast path `|a - b| <= epsilon`, then `|a - b| <= max(|a|, |b|) *
max_relative`. -/
theorem relative_eq_follows_spec_procedure (a b epsilon max_relative : F) :
    relative_eq a b epsilon max_relative = relative_eq_spec a b epsilon max_relative := by
  simp only [relative_eq, relative_eq_spec, F.largest_eq_max]

/-- C2: `relative_ne` is the logical negation of `relative_eq`, so the two
never return the same boolean on the same inputs. -/
theorem relative_ne_is_negation (a b epsilon max_relative : F) :
    relative_ne a b epsilon max_relative = !(relative_eq a b epsilon max_relative)
    ∧ relative_eq a b epsilon max_relative ≠ relative_ne a b epsilon max_relative := by
  refine ⟨rfl, ?_⟩
  cases h : relative_eq a b epsilon max_relative <;> simp [relative_ne, h]

/-- C3: `relative_eq` with a NaN operand on either side is false for every
other operand (finite, infinite, or NaN itself) and every choice of
tolerances. -/
theorem relative_eq_nan_exclusion (x epsilon max_relative : F) :
    relative_eq F.nan x epsilon max_relative = false
    ∧ relative_eq x F.nan epsilon max_relative = false :=
  ⟨relative_eq_nan_left x epsilon max_relative,
   relative_eq_nan_right x epsilon max_relative⟩

/-- C4: equal-signed infinities are relative-equal, opposite-signed
infinities are not, and no finite value (negative zero included) is
relative-equal to an infinity, all regardless of tolerances. -/
theorem relative_eq_infinity_rules (s : Bool) (q : ℚ) (epsilon max_relative : F) :
    relative_eq (F.inf s) (F.inf s) epsilon max_relative = true
    ∧ relative_eq (F.inf true) (F.inf false) epsilon max_relative = false
    ∧ relative_eq (F.inf false) (F.inf true) epsilon max_relative = false
    ∧ relative_eq (F.fin q) (F.inf s) epsilon max_relative = false
    ∧ relative_eq F.negZero (F.inf s) epsilon max_relative = false := by
  refine ⟨?_, rfl, rfl, ?_, ?_⟩ <;> cases s <;> rfl

/-- C5: `relative_eq` is reflexive on every non-NaN value, for every choice
of tolerances (nonnegative ones in particular); and the two signed zeros
compare relative-equal with both tolerances zero. -/
theorem relative_eq_reflexive_nonnan (a epsilon max_relative : F) (ha : a ≠ F.nan) :
    relative_eq a a epsilon max_relative = true
    ∧ relative_eq (F.fin 0) F.negZero (F.fin 0) (F.fin 0) = true := by
  refine ⟨?_, by decide⟩
  cases a with
  | nan => exact absurd rfl ha
  | inf s => simp [relative_eq, F.beq]
  | negZero => simp [relative_eq, F.beq, F.val]
  | fin q => simp [relative_eq, F.beq, F.val]

/-- Witness for C5 at the concrete non-NaN value `1.0` with zero
tolerances. -/
theorem relative_eq_reflexive_nonnan_witness :
    F.fin 1 ≠ F.nan
    ∧ relative_eq (F.fin 1) (F.fin 1) (F.fin 0) (F.fin 0) = true :=
  ⟨by decide, (relative_eq_reflexive_nonnan (F.fin 1) (F.fin 0) (F.fin 0) (by decide)).1⟩

/-- C6: for `f64`, comparing `1.0` and `1.5` with the default (machine)
epsilon is true at `max_relative = 0.34` and false at `max_relative =
0.33` (the boundary is the relative gap `0.5 / 1.5`). -/
theorem relative_eq_custom_tolerance_boundary :
    relative_eq (F.fin 1) (F.fin (mkRat 3 2)) default_epsilon_f64 (F.fin (mkRat 34 100)) = true
    ∧ relative_eq (F.fin 1) (F.fin (mkRat 3 2)) default_epsilon_f64 (F.fin (mkRat 33 100))
        = false :=
  ⟨by decide, by decide⟩

/-- C7: slice `relative_eq` is true exactly when the lengths agree and
every index-aligned pair of elements is relative-equal; slices of
different length compare unequal for every tolerance. -/
theorem slice_relative_eq_pairwise_iff {α β E : Type} (elem_eq : α → β → E → E → Bool)
    (xs : List α) (ys : List β) (epsilon max_relative : E) :
    (slice_relative_eq elem_eq xs ys epsilon max_relative = true ↔
      xs.length = ys.length ∧
        ∀ (i : ℕ) (h1 : i < xs.length) (h2 : i < ys.length),
          elem_eq (xs.get ⟨i, h1⟩) (ys.get ⟨i, h2⟩) epsilon max_relative = true)
    ∧ (xs.length ≠ ys.length →
        slice_relative_eq elem_eq xs ys epsilon max_relative = false) := by
  refine ⟨slice_relative_eq_true_iff elem_eq xs ys epsilon max_relative, fun hne => ?_⟩
  cases h : slice_relative_eq elem_eq xs ys epsilon max_relative with
  | false => rfl
  | true =>
    exact absurd ((slice_relative_eq_true_iff elem_eq xs ys epsilon max_relative).mp h).1 hne

/-- Witness for C7 on concrete slices: equal singletons compare equal, and
a length-1 slice never equals a length-2 slice. -/
theorem slice_relative_eq_pairwise_iff_witness :
    slice_relative_eq relative_eq [F.fin 1] [F.fin 1] (F.fin 0) (F.fin 0) = true
    ∧ slice_relative_eq relative_eq [F.fin 1] [F.fin 1, F.fin 2] (F.fin 0) (F.fin 0) = false := by
  constructor
  · exact (slice_relative_eq_pairwise_iff relative_eq [F.fin 1] [F.fin 1]
        (F.fin 0) (F.fin 0)).1.mpr
      ⟨rfl, fun i h1 h2 => by
        have h0 : i = 0 := Nat.lt_one_iff.mp h1
        subst h0
        show relative_eq (F.fin 1) (F.fin 1) (F.fin 0) (F.fin 0) = true
        decide⟩
  · exact (slice_relative_eq_pairwise_iff relative_eq [F.fin 1] [F.fin 1, F.fin 2]
      (F.fin 0) (F.fin 0)).2 (by decide)

/-- C8: the `RefCell` comparison reads both cells and compares the inner
values with the element comparison when no conflicting writer exists; if
either cell is mutably borrowed, the borrow fails loudly (no boolean is
returned). -/
theorem refcell_relative_eq_borrow_discipline {T E : Type}
    (elem_eq : T → T → E → E → Bool) (a b : RefCell T) (epsilon max_relative : E) :
    (a.writerActive = false → b.writerActive = false →
      refcell_relative_eq elem_eq a b epsilon max_relative
        = some (elem_eq a.value b.value epsilon max_relative))
    ∧ (a.writerActive = true ∨ b.writerActive = true →
      refcell_relative_eq elem_eq a b epsilon max_relative = none) := by
  obtain ⟨va, wa⟩ := a
  obtain ⟨vb, wb⟩ := b
  cases wa <;> cases wb <;> simp [refcell_relative_eq, RefCell.borrow]

/-- Witness for C8 on concrete cells: two unborrowed cells yield the inner
comparison, and a mutably borrowed cell yields no boolean. -/
theorem refcell_relative_eq_borrow_discipline_witness :
    refcell_relative_eq relative_eq ⟨F.fin 1, false⟩ ⟨F.fin 1, false⟩ (F.fin 0) (F.fin 0)
      = some (relative_eq (F.fin 1) (F.fin 1) (F.fin 0) (F.fin 0))
    ∧ refcell_relative_eq relative_eq ⟨F.fin 1, true⟩ ⟨F.fin 1, false⟩ (F.fin 0) (F.fin 0)
      = none :=
  ⟨(refcell_relative_eq_borrow_discipline relative_eq ⟨F.fin 1, false⟩ ⟨F.fin 1, false⟩
      (F.fin 0) (F.fin 0)).1 rfl rfl,
   (refcell_relative_eq_borrow_discipline relative_eq ⟨F.fin 1, true⟩ ⟨F.fin 1, false⟩
      (F.fin 0) (F.fin 0)).2 (Or.inl rfl)⟩

/-- C9: `relative_eq` is symmetric in its two operands for every choice of
tolerances. -/
theorem relative_eq_symm (a b epsilon max_relative : F) :
    relative_eq a b epsilon max_relative = relative_eq b a epsilon max_relative := by
  by_cases ha : a = F.nan
  · subst ha; rw [relative_eq_nan_left, relative_eq_nan_right]
  by_cases hb : b = F.nan
  · subst hb; rw [relative_eq_nan_right, relative_eq_nan_left]
  · simp only [relative_eq]
    rw [F.beq_symm b a, Bool.or_comm (F.isInfinite b) (F.isInfinite a),
        F.abs_sub_symm b a, F.largest_symm a b ha hb]

/-- C10: two empty slices compare relative-equal for every element
comparison and every choice of tolerances. -/
theorem slice_relative_eq_nil_nil {α β E : Type} (elem_eq : α → β → E → E → Bool)
    (epsilon max_relative : E) :
    slice_relative_eq elem_eq ([] : List α) ([] : List β) epsilon max_relative = true := rfl
